import Mathlib

set_option linter.unusedVariables false

/-!
# Verification of the PostHog annotations endpoint and materialized-column stubs

This file gives a shallow embedding of the two source modules

* `posthog/api/annotation.py` — the annotations REST viewset: serializer
  `create`/`update`, `get_queryset` (query-parameter filtering, ordering and the
  soft-delete exclusion), `filter_queryset_by_parents_lookups` (visibility
  scoping) and the `post_save` receiver dispatching hook/analytics events;
* `posthog/clickhouse/materialized_columns/column.py` — the stub materialized
  column functions.

Conventions of the embedding:

* Query sets are modelled as Lean lists in store order; Django `filter`
  becomes `List.filter`, `order_by` becomes a stable sort (`List.insertionSort`)
  on the requested field, returning `Except` because an unknown sort field is a
  store-level `FieldError`.
* Timestamps (`created_at`, `updated_at`, `date_marker`) are modelled as
  ISO-8601 strings compared lexicographically, which matches the order of the
  underlying datetime values; query-string parameters stay strings throughout.
* `request.GET` is a list of key/value pairs; `QueryDict.__getitem__` returns
  the last value for a key and `QueryDict.dict()` de-duplicates keys, which is
  what `qget` and the `dedup` in `filter_request` reproduce.
* Fallible operations (`Team.objects.get`, `order_by` with a bad field)
  return `Option`/`Except`.
-/

namespace Posthog

/-- Scope of a record: visible only inside its team (`project`) or across all
teams of its organization (`organization`).  The model class is not under
`src/`; the enumeration is taken from spec §3 and the string values used for
query-parameter matching from the lower-case names used by the code
(`Annotation.Scope.ORGANIZATION` etc.). -/
inductive Scope where
  | PROJECT
  | ORGANIZATION
deriving DecidableEq, Repr

/-- String value of a scope, as matched by the `scope` query parameter. -/
def scope_value : Scope → String
  | Scope.PROJECT => "project"
  | Scope.ORGANIZATION => "organization"

/-- A team (workspace) and its owning organization, the part of the `Team`
model the annotation endpoint reads (`project.organization`,
`self.team.organization_id`). -/
structure Team where
  id : Nat
  organization_id : Nat
deriving DecidableEq, Repr

/-- The `Annotation` model record.  The model class itself
(`posthog/models/annotation.py`) is not under `src/`; its fields are the ones
named by `AnnotationSerializer.Meta.fields` plus the owning `team_id` /
`organization_id` used by the viewset, with attribute kinds per spec §3.
Timestamps are ISO-8601 strings ordered lexicographically. -/
structure Annot where
  id : Nat
  content : Option String
  date_marker : String
  creation_type : String
  dashboard_item : Option String
  insight_short_id : Option String
  insight_name : Option String
  created_by : Option Nat
  created_at : String
  updated_at : String
  deleted : Bool
  scope : Scope
  team_id : Nat
  organization_id : Nat
deriving DecidableEq, Repr

/-- The viewset actions relevant to `AnnotationsViewSet` (DRF `ModelViewSet`
action names; `self.action` in `get_queryset`). -/
inductive Action where
  | list
  | retrieve
  | create
  | update
  | partial_update
  | destroy
deriving DecidableEq, Repr

/-- The per-request state of `AnnotationsViewSet` that `get_queryset` and
`filter_queryset_by_parents_lookups` read: the resolved current team
(`self.team`), the `team_id` parents lookup from the URL
(`self.parents_query_dict["team_id"]`), the current action and the query
string `request.GET`. -/
structure ViewSet where
  team : Team
  parents_team_id : Nat
  action : Action
  params : List (String × String)
deriving DecidableEq, Repr

/-- `request.GET[key]` / `request.GET.get(key, ...)`: the last value supplied
for `key`, if any (`QueryDict` getitem semantics: the last of the values
bound to the key wins). -/
def qget (params : List (String × String)) (key : String) : Option String :=
  (params.reverse.find? (fun p => p.1 == key)).map (fun p => p.2)

/-- `AnnotationsViewSet.filter_queryset_by_parents_lookups`: keep a record iff
`Q(team_id=parents_query_dict["team_id"]) | Q(scope=ORGANIZATION,
organization_id=self.team.organization_id)`. -/
def filter_queryset_by_parents_lookups (vs : ViewSet) (queryset : List Annot) :
    List Annot :=
  queryset.filter (fun a =>
    a.team_id == vs.parents_team_id
      || (a.scope == Scope.ORGANIZATION
            && a.organization_id == vs.team.organization_id))

/-- Modelled from the spec: `StructuredViewSetMixin.get_queryset`
(`posthog/api/routing.py`, not under `src/`) applies the parents-lookup
scoping to the base queryset before the viewset's own filtering — spec §4.1:
"Visibility scoping (applied before the above filters, not overridable by
query params)". -/
def structured_get_queryset (vs : ViewSet) (base : List Annot) : List Annot :=
  filter_queryset_by_parents_lookups vs base

/-- Strict lexicographic order on character lists: the order of ISO-8601
timestamp strings, which coincides with the chronological order of the
datetime values they denote. -/
def lex_lt : List Char → List Char → Bool
  | _, [] => false
  | [], _ :: _ => true
  | c :: cs, d :: ds =>
    if c < d then true else if d < c then false else lex_lt cs ds

/-- Strict order on timestamp strings (`created_at__gt` / `created_at__lt`
comparisons of the store). -/
def str_lt (s t : String) : Bool := lex_lt s.data t.data

/-- Reflexive order on timestamp strings (used as the sort comparator). -/
def str_le (s t : String) : Bool := !(str_lt t s)

/-- The predicate applied by one recognized query-string key inside
`AnnotationsViewSet._filter_request`; unrecognized keys filter nothing. -/
def key_pred (params : List (String × String)) (key : String) (a : Annot) :
    Bool :=
  if key == "after" then str_lt ((qget params "after").getD "") a.created_at
  else if key == "before" then
    str_lt a.created_at ((qget params "before").getD "")
  else if key == "dashboardItemId" then
    a.dashboard_item == some ((qget params "dashboardItemId").getD "")
  else if key == "scope" then
    scope_value a.scope == (qget params "scope").getD ""
  else true

/-- One iteration of the `for key in filters` loop of
`AnnotationsViewSet._filter_request`: for `after` / `before` /
`dashboardItemId` / `scope`, narrow the queryset with the corresponding
filter (`created_at__gt`, `created_at__lt`, `dashboard_item_id`, `scope`);
any other key leaves the queryset unchanged. -/
def req_step (params : List (String × String)) (queryset : List Annot)
    (key : String) : List Annot :=
  if key == "after" then queryset.filter (key_pred params "after")
  else if key == "before" then queryset.filter (key_pred params "before")
  else if key == "dashboardItemId" then
    queryset.filter (key_pred params "dashboardItemId")
  else if key == "scope" then queryset.filter (key_pred params "scope")
  else queryset

/-- `AnnotationsViewSet._filter_request`: iterate the loop body `req_step`
over the (de-duplicated) keys of `request.GET.dict()`. -/
def filter_request (params : List (String × String)) (queryset : List Annot) :
    List Annot :=
  ((params.map Prod.fst).dedup).foldl (req_step params) queryset

/-- The field names the model of the store can sort on. -/
def valid_sort_field (field : String) : Bool :=
  field == "date_marker" || field == "created_at" || field == "updated_at"

/-- Value of a sortable field of a record. -/
def sort_key (field : String) (a : Annot) : String :=
  if field == "date_marker" then a.date_marker
  else if field == "created_at" then a.created_at
  else a.updated_at

/-- The store's `order_by`, modelled as a stable sort on the named field
(leading `-` for descending).  The field name arrives unvalidated from the
caller; an unknown field is the store's `FieldError` (spec §4.1: "invalid
field names are a caller error surfaced by the underlying store"). -/
def order_desc (order : String) : Bool := order.data.head? == some '-'

def order_field (order : String) : String :=
  if order_desc order then String.mk (order.data.drop 1) else order

def order_by (order : String) (queryset : List Annot) :
    Except String (List Annot) :=
  if valid_sort_field (order_field order) then
    if order_desc order then
      Except.ok (queryset.insertionSort (fun a b =>
        str_le (sort_key (order_field order) b)
          (sort_key (order_field order) a) = true))
    else
      Except.ok (queryset.insertionSort (fun a b =>
        str_le (sort_key (order_field order) a)
          (sort_key (order_field order) b) = true))
  else Except.error ("FieldError: " ++ order_field order)

/-- `AnnotationsViewSet.get_queryset`: on `list`, apply the query-parameter
filters and order by `request.GET.get("order", "-date_marker")`; on every
action other than `partial_update`, keep only `deleted=False` records. -/
def get_queryset (vs : ViewSet) (base : List Annot) :
    Except String (List Annot) :=
  let queryset := structured_get_queryset vs base
  let step : Except String (List Annot) :=
    if vs.action = Action.list then
      let order := (qget vs.params "order").getD "-date_marker"
      order_by order (filter_request vs.params queryset)
    else Except.ok queryset
  step.map (fun queryset =>
    if vs.action ≠ Action.partial_update then
      queryset.filter (fun a => a.deleted == false)
    else queryset)

/-- `AnnotationSerializer.Meta.fields`. -/
def meta_fields : List String :=
  ["id", "content", "date_marker", "creation_type", "dashboard_item",
   "insight_short_id", "insight_name", "created_by", "created_at",
   "updated_at", "deleted", "scope"]

/-- `AnnotationSerializer.Meta.read_only_fields` (with `created_by`, which is
declared `read_only=True` on the serializer itself as well). -/
def read_only_fields : List String :=
  ["id", "creation_type", "insight_short_id", "insight_name", "created_by",
   "created_at", "updated_at"]

/-- A field the serializer accepts as input: declared and not read-only. -/
def writable (field : String) : Bool :=
  meta_fields.contains field && !(read_only_fields.contains field)

/-- Raw client input to the serializer: any declared field may be supplied
(`none` = absent, `some v` = supplied with value `v`). -/
structure RawInput where
  id : Option Nat
  content : Option (Option String)
  date_marker : Option String
  creation_type : Option String
  dashboard_item : Option (Option String)
  insight_short_id : Option (Option String)
  insight_name : Option (Option String)
  created_by : Option Nat
  created_at : Option String
  updated_at : Option String
  deleted : Option Bool
  scope : Option Scope
deriving DecidableEq, Repr

/-- The validated data handed to `create` / `update`: only the writable
fields survive DRF validation. -/
structure ValidatedData where
  content : Option (Option String)
  date_marker : Option String
  dashboard_item : Option (Option String)
  deleted : Option Bool
  scope : Option Scope
deriving DecidableEq, Repr

/-- DRF `ModelSerializer.to_internal_value` restricted by
`Meta.read_only_fields` (framework behaviour driven by the `Meta` lists in
the source): a read-only field supplied by the client is silently dropped
from the validated data, never rejected. -/
def to_internal_value (raw : RawInput) : ValidatedData :=
  { content := if writable "content" then raw.content else none
    date_marker := if writable "date_marker" then raw.date_marker else none
    dashboard_item :=
      if writable "dashboard_item" then raw.dashboard_item else none
    deleted := if writable "deleted" then raw.deleted else none
    scope := if writable "scope" then raw.scope else none }

/-- Apply validated (writable-only) fields to a record — the field loop of
DRF `ModelSerializer.update` / the `**validated_data` kwargs of
`Annotation.objects.create`. -/
def apply_validated (a : Annot) (validated_data : ValidatedData) : Annot :=
  { a with
    content := validated_data.content.getD a.content
    date_marker := validated_data.date_marker.getD a.date_marker
    dashboard_item := validated_data.dashboard_item.getD a.dashboard_item
    deleted := validated_data.deleted.getD a.deleted
    scope := validated_data.scope.getD a.scope }

/-- `creation_type` default of the model (`USR`, user-created); the model
class is not under `src/`, the existence of a system-computed default is
spec §4.1 ("creation_type to its system-computed default"). -/
def default_creation_type : String := "USR"

/-- `AnnotationSerializer.update`: re-stamp `instance.team_id` from the
request context, then apply the validated fields. -/
def serializer_update (team_id : Nat) (inst : Annot)
    (validated_data : ValidatedData) : Annot :=
  apply_validated { inst with team_id := team_id } validated_data

/-- `AnnotationSerializer.create`: look up the context team
(`Team.objects.get(id=self.context["team_id"])`, `none` when absent models
the raised `DoesNotExist`), then create the record with
`organization=project.organization, team=project,
created_by=request.user, **validated_data`.  `nid` / `now` stand for the
store-generated primary key and `auto_now` timestamps. -/
def serializer_create (teams : List Team) (team_id : Nat) (user : Nat)
    (nid : Nat) (now : String) (validated_data : ValidatedData) :
    Option Annot :=
  (teams.find? (fun t => t.id == team_id)).map (fun project =>
    { id := nid
      content := validated_data.content.getD none
      date_marker := validated_data.date_marker.getD ""
      creation_type := default_creation_type
      dashboard_item := validated_data.dashboard_item.getD none
      insight_short_id := none
      insight_name := none
      created_by := some user
      created_at := now
      updated_at := now
      deleted := validated_data.deleted.getD false
      scope := validated_data.scope.getD Scope.PROJECT
      team_id := project.id
      organization_id := project.organization_id })

/-- Update a stored record by primary key (the persistence of a serializer
`update` + `save`). -/
def update_record (store : List Annot) (team_id : Nat) (pk : Nat)
    (validated_data : ValidatedData) : List Annot :=
  store.map (fun a =>
    if a.id == pk then serializer_update team_id a validated_data else a)

/-- A `raw_hook_event` dispatch (`event_name="annotation_created"`, the
record, the owning team as the event's user context). -/
structure HookEvent where
  event_name : String
  inst : Annot
  user_team : Nat
deriving DecidableEq, Repr

/-- A `report_user_action` call: the user it is reported against and the
analytics event name. -/
structure UserAction where
  user : Nat
  event_name : String
deriving DecidableEq, Repr

/-- The `post_save` receiver `annotation_created`: on creation send the
`annotation_created` hook event; whenever `created_by` is set, report an
`annotation created` / `annotation updated` analytics action against it. -/
def annotation_created (inst : Annot) (created : Bool) :
    Option HookEvent × Option UserAction :=
  ( if created then
      some { event_name := "annotation_created", inst := inst,
             user_team := inst.team_id }
    else none,
    match inst.created_by with
    | some u =>
        some { user := u,
               event_name :=
                 if created then "annotation created"
                 else "annotation updated" }
    | none => none )

/-- Modelled from the spec: the `ForbidDestroyModel` mixin
(`posthog/api/forbid_destroy_model.py`, not under `src/`) — "destroy —
disallowed unconditionally; any call fails with a fixed 'method not
allowed'-style error regardless of caller identity or record state" and
leaves the store unchanged (spec §4.1 / §7). -/
def destroy (store : List Annot) (pk : Nat) :
    Except String Unit × List Annot :=
  (Except.error "405 Method Not Allowed", store)

namespace MaterializedColumns

/-- `cache_for`: memoization decorator for a pure function — observationally
the identity on the function. -/
def cache_for (duration_seconds : Nat) (f : α → β) : α → β := f

/-- `get_materialized_columns`: returns the empty mapping
(property name, table column) ↦ column name for every table. -/
def get_materialized_columns (table : String) :
    List ((String × String) × String) :=
  cache_for (15 * 60) (fun _ => []) table

/-- `materialize`: body is `pass` — returns `None`, no effect. -/
def materialize (table : String) (property : String)
    (column_name : Option String) (table_column : String) : Unit :=
  ()

/-- `backfill_materialized_columns`: body is `pass` — returns `None`,
no effect. -/
def backfill_materialized_columns (table : String)
    (properties : List (String × String)) (backfill_period_seconds : Nat)
    (test_settings : Option String) : Unit :=
  ()

end MaterializedColumns

/-! ## Properties of the timestamp order -/

lemma lex_lt_asymm : ∀ xs ys : List Char,
    lex_lt xs ys = true → lex_lt ys xs = false := by
  intro xs
  induction xs with
  | nil =>
    intro ys h
    cases ys with
    | nil => simp [lex_lt] at h
    | cons d ds => simp [lex_lt]
  | cons c cs ih =>
    intro ys h
    cases ys with
    | nil => simp [lex_lt] at h
    | cons d ds =>
      simp only [lex_lt] at h ⊢
      rcases lt_trichotomy c d with hcd | hcd | hcd
      · simp [hcd, not_lt_of_gt hcd]
      · subst hcd
        simp only [lt_irrefl, if_false] at h ⊢
        exact ih ds h
      · simp [hcd, not_lt_of_gt hcd] at h

lemma lex_lt_cotrans : ∀ xs ys zs : List Char,
    lex_lt xs zs = true → lex_lt xs ys = true ∨ lex_lt ys zs = true := by
  intro xs
  induction xs with
  | nil =>
    intro ys zs h
    cases zs with
    | nil => simp [lex_lt] at h
    | cons e es =>
      cases ys with
      | nil => exact Or.inr h
      | cons d ds => exact Or.inl (by simp [lex_lt])
  | cons c cs ih =>
    intro ys zs h
    cases zs with
    | nil => simp [lex_lt] at h
    | cons e es =>
      cases ys with
      | nil => exact Or.inr (by simp [lex_lt])
      | cons d ds =>
        simp only [lex_lt] at h ⊢
        by_cases hcd : c < d
        · exact Or.inl (by simp [hcd])
        · by_cases hde : d < e
          · exact Or.inr (by simp [hde])
          · by_cases hce : c < e
            · exact absurd
                (lt_of_lt_of_le hce (le_trans (not_lt.mp hde) (not_lt.mp hcd)))
                (lt_irrefl c)
            · by_cases hec : e < c
              · simp [hce, hec] at h
              · have hceq : c = e := le_antisymm (not_lt.mp hec) (not_lt.mp hce)
                have hdeq : d = c :=
                  le_antisymm (not_lt.mp hcd) (hceq ▸ not_lt.mp hde)
                subst hdeq
                subst hceq
                simp only [lt_irrefl, if_false] at h ⊢
                exact ih ds es h

lemma str_le_total (s t : String) : str_le s t = true ∨ str_le t s = true := by
  unfold str_le str_lt
  by_cases h : lex_lt t.data s.data = true
  · exact Or.inr (by simp [lex_lt_asymm _ _ h])
  · refine Or.inl ?_
    have h' : lex_lt t.data s.data = false := by simpa using h
    simp [h']

lemma str_le_trans {s t u : String} (h1 : str_le s t = true)
    (h2 : str_le t u = true) : str_le s u = true := by
  unfold str_le str_lt at h1 h2 ⊢
  simp only [Bool.not_eq_true'] at h1 h2 ⊢
  by_contra hcon
  rw [Bool.not_eq_false] at hcon
  rcases lex_lt_cotrans u.data t.data s.data hcon with h | h
  · simp [h] at h2
  · simp [h] at h1

/-! ## Membership characterizations of the filtering pipeline -/

lemma mem_filter_parents (vs : ViewSet) (queryset : List Annot) (a : Annot) :
    a ∈ filter_queryset_by_parents_lookups vs queryset ↔
      a ∈ queryset ∧ (a.team_id = vs.parents_team_id ∨
        (a.scope = Scope.ORGANIZATION ∧
          a.organization_id = vs.team.organization_id)) := by
  simp [filter_queryset_by_parents_lookups, List.mem_filter]

lemma mem_req_step (params : List (String × String)) (queryset : List Annot)
    (key : String) (a : Annot) :
    a ∈ req_step params queryset key ↔
      a ∈ queryset ∧ key_pred params key a = true := by
  rcases eq_or_ne key "after" with rfl | h1
  · simp [req_step, List.mem_filter]
  rcases eq_or_ne key "before" with rfl | h2
  · simp [req_step, List.mem_filter]
  rcases eq_or_ne key "dashboardItemId" with rfl | h3
  · simp [req_step, List.mem_filter]
  rcases eq_or_ne key "scope" with rfl | h4
  · simp [req_step, List.mem_filter]
  · simp [req_step, key_pred, h1, h2, h3, h4]

lemma mem_foldl_req_step (params : List (String × String)) :
    ∀ (ks : List String) (queryset : List Annot) (a : Annot),
      a ∈ ks.foldl (req_step params) queryset ↔
        a ∈ queryset ∧ ∀ k ∈ ks, key_pred params k a = true := by
  intro ks
  induction ks with
  | nil => intro queryset a; simp
  | cons k ks ih =>
    intro queryset a
    rw [List.foldl_cons, ih, mem_req_step]
    simp [List.forall_mem_cons, and_assoc]

lemma mem_filter_request (params : List (String × String))
    (queryset : List Annot) (a : Annot) :
    a ∈ filter_request params queryset ↔
      a ∈ queryset ∧
        ∀ k ∈ (params.map Prod.fst).dedup, key_pred params k a = true := by
  unfold filter_request
  exact mem_foldl_req_step params _ queryset a

lemma mem_order_by {order : String} {queryset l : List Annot}
    (h : order_by order queryset = Except.ok l) (a : Annot) :
    a ∈ l ↔ a ∈ queryset := by
  unfold order_by at h
  split at h
  · split at h
    · rw [Except.ok.injEq] at h
      rw [← h]
      exact (List.perm_insertionSort _ queryset).mem_iff
    · rw [Except.ok.injEq] at h
      rw [← h]
      exact (List.perm_insertionSort _ queryset).mem_iff
  · exact absurd h (by simp)

lemma get_queryset_list {vs : ViewSet} (base : List Annot)
    (h : vs.action = Action.list) :
    get_queryset vs base =
      (order_by ((qget vs.params "order").getD "-date_marker")
          (filter_request vs.params (structured_get_queryset vs base))).map
        (fun queryset => queryset.filter (fun a => a.deleted == false)) := by
  unfold get_queryset
  rw [h]
  simp

lemma mem_get_queryset_list {vs : ViewSet} {base l : List Annot}
    (hact : vs.action = Action.list)
    (hok : get_queryset vs base = Except.ok l) (a : Annot) :
    a ∈ l ↔ a ∈ structured_get_queryset vs base ∧
      (∀ k ∈ (vs.params.map Prod.fst).dedup, key_pred vs.params k a = true) ∧
      a.deleted = false := by
  rw [get_queryset_list base hact] at hok
  cases hord : order_by ((qget vs.params "order").getD "-date_marker")
      (filter_request vs.params (structured_get_queryset vs base)) with
  | error e => rw [hord] at hok; simp [Except.map] at hok
  | ok l0 =>
    rw [hord] at hok
    simp only [Except.map, Except.ok.injEq] at hok
    rw [← hok, List.mem_filter, mem_order_by hord a, mem_filter_request]
    simp [and_assoc]

lemma qget_mem_keys {params : List (String × String)} {k v : String}
    (h : qget params k = some v) : k ∈ params.map Prod.fst := by
  unfold qget at h
  cases hf : params.reverse.find? (fun p => p.1 == k) with
  | none => rw [hf] at h; simp at h
  | some p =>
    have hp := List.mem_of_find?_eq_some hf
    have hpk := List.find?_some hf
    exact List.mem_map.mpr ⟨p, List.mem_reverse.mp hp, beq_iff_eq.mp hpk⟩

lemma qget_none_not_mem {params : List (String × String)} {k : String}
    (h : qget params k = none) : k ∉ params.map Prod.fst := by
  unfold qget at h
  cases hf : params.reverse.find? (fun p => p.1 == k) with
  | some p => rw [hf] at h; simp at h
  | none =>
    rw [List.find?_eq_none] at hf
    intro hk
    rcases List.mem_map.mp hk with ⟨p, hp, hpk⟩
    exact hf p (List.mem_reverse.mpr hp) (by simp [hpk])

lemma get_queryset_partial {vs : ViewSet} (base : List Annot)
    (h : vs.action = Action.partial_update) :
    get_queryset vs base = Except.ok (structured_get_queryset vs base) := by
  unfold get_queryset
  rw [h]
  simp [Except.map]

lemma get_queryset_list_default {vs : ViewSet} (base : List Annot)
    (hact : vs.action = Action.list) (hparams : vs.params = []) :
    get_queryset vs base =
      Except.ok (((structured_get_queryset vs base).insertionSort
          (fun a b =>
            str_le (sort_key (order_field "-date_marker") b)
              (sort_key (order_field "-date_marker") a) = true)).filter
        (fun a => a.deleted == false)) := by
  rw [get_queryset_list base hact, hparams]
  have hq : qget ([] : List (String × String)) "order" = none := rfl
  rw [hq]
  simp only [Option.getD_none]
  have hfr : filter_request ([] : List (String × String))
      (structured_get_queryset vs base) = structured_get_queryset vs base :=
    rfl
  rw [hfr]
  have h1 : valid_sort_field (order_field "-date_marker") = true := by decide
  have h2 : order_desc "-date_marker" = true := by decide
  unfold order_by
  rw [h1, h2]
  simp [Except.map]

/-! ## Concrete fixtures: teams X and Y in organization 10, team Z in
organization 20 (the scenario of spec §8.8) -/

def teamX : Team := ⟨1, 10⟩

def teamY : Team := ⟨2, 10⟩

def teamZ : Team := ⟨3, 20⟩

/-- The team → organization assignment of the fixture teams. -/
def orgOfEx : Nat → Nat := fun tid => if tid = 3 then 20 else 10

def ann1 : Annot :=
  { id := 1, content := some "launch", date_marker := "2021-03-01",
    creation_type := "USR", dashboard_item := none, insight_short_id := none,
    insight_name := none, created_by := some 7, created_at := "2021-03-02",
    updated_at := "2021-03-02", deleted := false, scope := Scope.PROJECT,
    team_id := 1, organization_id := 10 }

def ann2 : Annot :=
  { ann1 with
    id := 2
    scope := Scope.ORGANIZATION
    team_id := 2
    created_at := "2021-03-05"
    date_marker := "2021-03-06" }

def ann3 : Annot :=
  { ann1 with
    id := 3
    scope := Scope.ORGANIZATION
    team_id := 3
    organization_id := 20
    created_at := "2021-03-07" }

def annDel : Annot := { ann1 with id := 4, deleted := true }

/-- A partial-update body that only sets `deleted = False` (the restore
request of the code comment in `get_queryset`). -/
def restoreData : ValidatedData :=
  { content := none, date_marker := none, dashboard_item := none,
    deleted := some false, scope := none }

/-- A client payload supplying every field, including all read-only ones,
with adversarial values. -/
def rawJunk : RawInput :=
  { id := some 999, content := some (some "note"), date_marker := some "2021-05-01",
    creation_type := some "GIT", dashboard_item := some (some "55"),
    insight_short_id := some (some "abcDEF"), insight_name := some (some "Trends"),
    created_by := some 999, created_at := some "1970-01-01",
    updated_at := some "1970-01-01", deleted := some false,
    scope := some Scope.PROJECT }

/-! ## Claim theorems -/

/-- C1: given the §3 invariant that a record's `organization_id` is the
organization of its owning team (`orgOf`), the `list()` visibility scoping
`filter_queryset_by_parents_lookups` keeps a record iff it belongs to the
requesting team, or its scope is `ORGANIZATION` and its owning team is under
the requesting team's organization; in particular an `ORGANIZATION`-scoped
record of a sibling team is kept and a `PROJECT`-scoped one is not. -/
theorem C1_visibility_scoping (vs : ViewSet) (queryset : List Annot)
    (a : Annot) (orgOf : Nat → Nat)
    (hinv : a.organization_id = orgOf a.team_id)
    (hteam : vs.team.organization_id = orgOf vs.team.id)
    (hparents : vs.parents_team_id = vs.team.id) :
    a ∈ filter_queryset_by_parents_lookups vs queryset ↔
      a ∈ queryset ∧ (a.team_id = vs.team.id ∨
        (a.scope = Scope.ORGANIZATION ∧
          orgOf a.team_id = orgOf vs.team.id)) := by
  rw [mem_filter_parents, hparents, hinv, hteam]

/-- C1 witness: the `ORGANIZATION`-scoped record of sibling team Y is
visible when listing as team X. -/
theorem C1_visibility_scoping_witness :
    ann2 ∈ filter_queryset_by_parents_lookups
      { team := teamX, parents_team_id := 1, action := Action.list,
        params := [] } [ann1, ann2, ann3] :=
  (C1_visibility_scoping
      { team := teamX, parents_team_id := 1, action := Action.list,
        params := [] } [ann1, ann2, ann3] ann2 orgOfEx rfl rfl rfl).mpr
    ⟨by decide, Or.inr ⟨rfl, rfl⟩⟩

/-- C5: `destroy` fails unconditionally with the fixed method-not-allowed
error and leaves the store unchanged, for every store and primary key. -/
theorem C5_destroy_forbidden (store : List Annot) (pk : Nat) :
    (destroy store pk).1 = Except.error "405 Method Not Allowed" ∧
      (destroy store pk).2 = store :=
  ⟨rfl, rfl⟩

/-- C6: `AnnotationSerializer.update` re-stamps the record's team from the
current request context before applying the submitted field changes, for
every previous team and every input. -/
theorem C6_update_restamps_team (team_id : Nat) (inst : Annot)
    (validated_data : ValidatedData) :
    (serializer_update team_id inst validated_data).team_id = team_id ∧
      serializer_update team_id inst validated_data =
        apply_validated { inst with team_id := team_id } validated_data :=
  ⟨rfl, rfl⟩

/-- C7: the `post_save` receiver sends the `annotation_created` hook event
iff the save was a creation, and reports a user analytics action iff
`created_by` is set, against `created_by`, named `annotation created` on
creation and `annotation updated` otherwise. -/
theorem C7_post_save_dispatch (inst : Annot) (created : Bool) :
    ((annotation_created inst created).1.isSome ↔ created = true) ∧
      ((annotation_created inst created).2.isSome ↔ inst.created_by.isSome) ∧
      (annotation_created inst created).2.map UserAction.user =
        inst.created_by ∧
      (annotation_created inst created).2.map UserAction.event_name =
        inst.created_by.map (fun _ =>
          if created then "annotation created" else "annotation updated") := by
  unfold annotation_created
  cases created <;> cases hcb : inst.created_by <;> simp [hcb]

/-- C10: `get_materialized_columns` returns the empty mapping for every
table, and `materialize` / `backfill_materialized_columns` return the unit
value (`None`) for all inputs, performing no state change. -/
theorem C10_materialized_column_stubs :
    (∀ table, MaterializedColumns.get_materialized_columns table = []) ∧
      (∀ table property column_name table_column,
        MaterializedColumns.materialize table property column_name
          table_column = ()) ∧
      (∀ table properties backfill_period_seconds test_settings,
        MaterializedColumns.backfill_materialized_columns table properties
          backfill_period_seconds test_settings = ()) :=
  ⟨fun _ => rfl, fun _ _ _ _ => rfl, fun _ _ _ _ => rfl⟩

/-- C3: for every client input, `create` succeeds without rejecting the
read-only fields (they are silently dropped by validation), and the created
record has `created_by` = the authenticated user, `team` = the context's
team, `organization` = that team's organization; its `id`, `creation_type`,
`insight_short_id`, `insight_name`, `created_at` and `updated_at` are the
system-computed values, independent of the client-supplied ones. -/
theorem C3_create_ignores_read_only (teams : List Team)
    (team_id user nid : Nat) (now : String) (raw : RawInput) (project : Team)
    (h : teams.find? (fun t => t.id == team_id) = some project) :
    ∃ ann,
      serializer_create teams team_id user nid now (to_internal_value raw) =
          some ann ∧
        ann.created_by = some user ∧
        ann.team_id = team_id ∧
        ann.organization_id = project.organization_id ∧
        ann.id = nid ∧
        ann.creation_type = default_creation_type ∧
        ann.insight_short_id = none ∧
        ann.insight_name = none ∧
        ann.created_at = now ∧
        ann.updated_at = now := by
  have hid : project.id = team_id := by
    have hp := List.find?_some h
    exact beq_iff_eq.mp hp
  refine ⟨{ id := nid
            content := (to_internal_value raw).content.getD none
            date_marker := (to_internal_value raw).date_marker.getD ""
            creation_type := default_creation_type
            dashboard_item := (to_internal_value raw).dashboard_item.getD none
            insight_short_id := none
            insight_name := none
            created_by := some user
            created_at := now
            updated_at := now
            deleted := (to_internal_value raw).deleted.getD false
            scope := (to_internal_value raw).scope.getD Scope.PROJECT
            team_id := project.id
            organization_id := project.organization_id },
    ?_, rfl, hid, rfl, rfl, rfl, rfl, rfl, rfl, rfl⟩
  unfold serializer_create
  rw [h]
  rfl

/-- C3 witness: a create call in team X's context by user 42, whose payload
supplies adversarial values for every read-only field. -/
theorem C3_create_ignores_read_only_witness :
    ∃ ann,
      serializer_create [teamX] 1 42 99 "2021-04-01" (to_internal_value rawJunk) =
          some ann ∧
        ann.created_by = some 42 ∧
        ann.team_id = 1 ∧
        ann.organization_id = teamX.organization_id ∧
        ann.id = 99 ∧
        ann.creation_type = default_creation_type ∧
        ann.insight_short_id = none ∧
        ann.insight_name = none ∧
        ann.created_at = "2021-04-01" ∧
        ann.updated_at = "2021-04-01" :=
  C3_create_ignores_read_only [teamX] 1 42 99 "2021-04-01" rawJunk teamX rfl

/-- C9: for every action other than `partial_update` the queryset is
filtered to `deleted = False` (a soft-deleted record is not reachable), and
for `partial_update` the queryset is exactly the visibility-scoped base, so
a soft-deleted record remains reachable there. -/
theorem C9_deleted_filter_by_action (vs : ViewSet) (base : List Annot) :
    (vs.action ≠ Action.partial_update →
      ∀ l, get_queryset vs base = Except.ok l → ∀ a ∈ l, a.deleted = false)
    ∧ (vs.action = Action.partial_update →
        get_queryset vs base =
          Except.ok (structured_get_queryset vs base)) := by
  constructor
  · intro hne l hok a hal
    by_cases hl : vs.action = Action.list
    · exact ((mem_get_queryset_list hl hok a).mp hal).2.2
    · simp only [get_queryset] at hok
      rw [if_neg hl] at hok
      simp only [Except.map, Except.ok.injEq] at hok
      rw [if_pos hne] at hok
      rw [← hok, List.mem_filter] at hal
      simpa using hal.2
  · intro hp
    exact get_queryset_partial base hp

/-- C9 witness: a `retrieve` queryset only yields non-deleted records, while
the `partial_update` queryset over a store holding a soft-deleted record is
the unfiltered scoped base. -/
theorem C9_deleted_filter_by_action_witness :
    ann1.deleted = false ∧
      get_queryset
          { team := teamX, parents_team_id := 1,
            action := Action.partial_update, params := [] } [annDel] =
        Except.ok (structured_get_queryset
          { team := teamX, parents_team_id := 1,
            action := Action.partial_update, params := [] } [annDel]) :=
  ⟨(C9_deleted_filter_by_action
      { team := teamX, parents_team_id := 1, action := Action.retrieve,
        params := [] } [ann1]).1 (by decide) [ann1] rfl ann1 (by decide),
    (C9_deleted_filter_by_action
      { team := teamX, parents_team_id := 1,
        action := Action.partial_update, params := [] } [annDel]).2 rfl⟩

/-- C4: when the query string carries `after=T1` and `before=T2` (and no
other recognized filter key), the `list()` result contains exactly the
visible (scope-filtered), non-deleted records with `T1 < created_at < T2`,
both bounds strict, so records whose `created_at` equals `T1` or `T2` are
excluded. -/
theorem C4_after_before_strict (vs : ViewSet) (base : List Annot)
    (t1 t2 : String) (l : List Annot) (a : Annot)
    (hact : vs.action = Action.list)
    (hafter : qget vs.params "after" = some t1)
    (hbefore : qget vs.params "before" = some t2)
    (hdib : qget vs.params "dashboardItemId" = none)
    (hscope : qget vs.params "scope" = none)
    (hok : get_queryset vs base = Except.ok l) :
    a ∈ l ↔ a ∈ structured_get_queryset vs base ∧ a.deleted = false ∧
      str_lt t1 a.created_at = true ∧ str_lt a.created_at t2 = true := by
  rw [mem_get_queryset_list hact hok a]
  constructor
  · rintro ⟨hs, hks, hd⟩
    refine ⟨hs, hd, ?_, ?_⟩
    · have h1 := hks "after" (List.mem_dedup.mpr (qget_mem_keys hafter))
      unfold key_pred at h1
      rw [hafter] at h1
      simpa using h1
    · have h1 := hks "before" (List.mem_dedup.mpr (qget_mem_keys hbefore))
      unfold key_pred at h1
      rw [hbefore] at h1
      simpa using h1
  · rintro ⟨hs, hd, h1, h2⟩
    refine ⟨hs, ?_, hd⟩
    intro k hk
    have hkmem : k ∈ vs.params.map Prod.fst := List.mem_dedup.mp hk
    rcases eq_or_ne k "after" with rfl | k1
    · unfold key_pred
      rw [hafter]
      simpa using h1
    rcases eq_or_ne k "before" with rfl | k2
    · unfold key_pred
      rw [hbefore]
      simpa using h2
    rcases eq_or_ne k "dashboardItemId" with rfl | k3
    · exact absurd hkmem (qget_none_not_mem hdib)
    rcases eq_or_ne k "scope" with rfl | k4
    · exact absurd hkmem (qget_none_not_mem hscope)
    · unfold key_pred
      simp [k1, k2, k3, k4]

/-- C4 witness: with `after=2021-03-02, before=2021-03-09`, the record
created exactly at the `after` boundary is excluded and the strictly inside
one is returned. -/
theorem C4_after_before_strict_witness :
    ann2 ∈ structured_get_queryset
        { team := teamX, parents_team_id := 1, action := Action.list,
          params := [("after", "2021-03-02"), ("before", "2021-03-09")] }
        [ann1, ann2] ∧
      ann2.deleted = false ∧
      str_lt "2021-03-02" ann2.created_at = true ∧
      str_lt ann2.created_at "2021-03-09" = true :=
  (C4_after_before_strict
      { team := teamX, parents_team_id := 1, action := Action.list,
        params := [("after", "2021-03-02"), ("before", "2021-03-09")] }
      [ann1, ann2] "2021-03-02" "2021-03-09" [ann2] ann2
      rfl rfl rfl rfl rfl rfl).mp (by decide)

/-- C8: on `list()`, the sort key handed to the store is exactly the `order`
query parameter (unvalidated pass-through), defaulting to `-date_marker`;
and when the parameter is absent every successful result is sorted by
descending `date_marker`. -/
theorem C8_order_passthrough (vs : ViewSet) (base : List Annot)
    (hact : vs.action = Action.list) :
    get_queryset vs base =
      (order_by ((qget vs.params "order").getD "-date_marker")
          (filter_request vs.params (structured_get_queryset vs base))).map
        (fun queryset => queryset.filter (fun a => a.deleted == false)) ∧
      (qget vs.params "order" = none →
        ∀ l, get_queryset vs base = Except.ok l →
          l.Sorted (fun a b => str_le b.date_marker a.date_marker = true)) := by
  refine ⟨get_queryset_list base hact, ?_⟩
  intro hnone l hok
  rw [get_queryset_list base hact, hnone] at hok
  simp only [Option.getD_none] at hok
  have h1 : valid_sort_field (order_field "-date_marker") = true := by decide
  have h2 : order_desc "-date_marker" = true := by decide
  unfold order_by at hok
  rw [h1, h2] at hok
  simp only [if_true, Except.map, Except.ok.injEq] at hok
  rw [← hok]
  haveI : IsTotal Annot (fun a b : Annot =>
      str_le b.date_marker a.date_marker = true) :=
    ⟨fun a b => str_le_total _ _⟩
  haveI : IsTrans Annot (fun a b : Annot =>
      str_le b.date_marker a.date_marker = true) :=
    ⟨fun a b c hab hbc => str_le_trans hbc hab⟩
  exact List.Pairwise.filter _ (List.sorted_insertionSort _ _)

/-- C8 witness: listing team X's records with no `order` parameter returns
them sorted by descending `date_marker`. -/
theorem C8_order_passthrough_witness :
    List.Sorted (fun a b : Annot =>
        str_le b.date_marker a.date_marker = true) [ann2, ann1] :=
  (C8_order_passthrough
      { team := teamX, parents_team_id := 1, action := Action.list,
        params := [] } [ann1, ann2] rfl).2 rfl [ann2, ann1] rfl

/-- C2 counterexample: the claim says a soft-deleted record "remains
addressable by update (full or partial)", but the full (non-partial) update
queryset is filtered to `deleted = False`: over a store holding only the
soft-deleted record, the `update` action's queryset is empty, so the record
is not addressable by a full update. -/
theorem C2_full_update_blocked_counterexample :
    annDel.deleted = true ∧
      get_queryset
          { team := teamX, parents_team_id := 1, action := Action.update,
            params := [] } [annDel] = Except.ok [] :=
  ⟨rfl, rfl⟩

/-- C2 (amended): `deleted = true` records are excluded from every `list()`
result; a PARTIAL update bypasses the deleted-exclusion filter (its queryset
is the unfiltered scoped base, so the soft-deleted record stays addressable
there — a full update's queryset does not contain it), and a partial update
setting `deleted = false` makes the record reappear in subsequent `list()`
results. -/
theorem C2_soft_delete_restore (team : Team) (base : List Annot) (a : Annot)
    (params : List (String × String))
    (hmem : a ∈ base) (hdel : a.deleted = true)
    (hteam : a.team_id = team.id) :
    (∀ (vs : ViewSet) (l : List Annot), vs.action = Action.list →
        get_queryset vs base = Except.ok l → a ∉ l)
    ∧ get_queryset
        { team := team, parents_team_id := team.id,
          action := Action.partial_update, params := params } base =
        Except.ok (structured_get_queryset
          { team := team, parents_team_id := team.id,
            action := Action.partial_update, params := params } base)
    ∧ a ∈ structured_get_queryset
        { team := team, parents_team_id := team.id,
          action := Action.partial_update, params := params } base
    ∧ (∃ l, get_queryset
          { team := team, parents_team_id := team.id,
            action := Action.list, params := [] }
          (update_record base team.id a.id restoreData) = Except.ok l ∧
        serializer_update team.id a restoreData ∈ l) := by
  refine ⟨?_, get_queryset_partial base rfl, ?_, ?_⟩
  · intro vs l hact hok hal
    have hfalse := ((mem_get_queryset_list hact hok a).mp hal).2.2
    rw [hdel] at hfalse
    cases hfalse
  · exact (mem_filter_parents _ base a).mpr ⟨hmem, Or.inl hteam⟩
  · have hmem' : serializer_update team.id a restoreData ∈
        update_record base team.id a.id restoreData := by
      unfold update_record
      refine List.mem_map.mpr ⟨a, hmem, ?_⟩
      simp
    have hscope' : serializer_update team.id a restoreData ∈
        structured_get_queryset
          { team := team, parents_team_id := team.id,
            action := Action.list, params := [] }
          (update_record base team.id a.id restoreData) :=
      (mem_filter_parents _ _ _).mpr ⟨hmem', Or.inl rfl⟩
    refine ⟨_, get_queryset_list_default _ rfl rfl, ?_⟩
    exact List.mem_filter.mpr
      ⟨(List.perm_insertionSort _ _).mem_iff.mpr hscope', rfl⟩

/-- C2 witness: the soft-deleted record of team X is reachable through the
`partial_update` queryset over a store in which listing would not show it. -/
theorem C2_soft_delete_restore_witness :
    annDel ∈ structured_get_queryset
      { team := teamX, parents_team_id := teamX.id,
        action := Action.partial_update, params := [] } [ann1, annDel] :=
  (C2_soft_delete_restore teamX [ann1, annDel] annDel []
    (by decide) rfl rfl).2.2.1

end Posthog
